import Mathlib

/-! Hddis RESP service: the command loop of `src/resp-service/main.go`.

A shallow embedding of the per-connection command loop (`main`, lines 60-129)
and of `BytesToLower`, followed by theorems about the command semantics.

Modelling conventions.
* A Go `byte` is a natural number; the only arithmetic on bytes, `c + 32`, is
  written with its wrap-around `% 256`.
* A Go `[]byte` and a Go `string` are both lists of bytes (`Bytes`); string
  literals of the source are written with `ascii`.
* `testMap` (a Go `map[string]string`) is an association list with unique keys;
  `mapIndex` is the two-valued index expression `testMap[key]` and `mapAssign`
  is the assignment `testMap[key] = val`.
* The methods of the external RESP connection (`rconn.WriteXxx`) are recorded as
  values of `Write`, one constructor per method that the loop calls.
* An index expression that Go checks at run time (`args[0]`, `args[1]`) is a
  lookup `args[i]?`; the step returns `none` when the check fails.
-/

namespace Hddis

/-- A byte string: the contents of a Go `[]byte` or of a Go `string`. -/
abbrev Bytes := List Nat

/-- The bytes of an ASCII string literal of the source. -/
def ascii (s : String) : Bytes := s.toList.map Char.toNat

/-- `BytesToLower` (main.go 14-22): every byte in `'A'..'Z'` is replaced by
`c + 32`; the slice is updated in place and returned. -/
def BytesToLower : Bytes → Bytes
  | [] => []
  | c :: b => (if c ≥ 65 ∧ c ≤ 90 then (c + 32) % 256 else c) :: BytesToLower b

/-- `bstring` (main.go 25-28): the same bytes viewed as a string. -/
def bstring (bs : Bytes) : Bytes := bs

/-- The shared `testMap` of `main` (main.go 36). -/
abbrev Store := List (Bytes × Bytes)

/-- The index expression `val, ok := testMap[key]`; `none` stands for `ok = false`. -/
def mapIndex : Store → Bytes → Option Bytes
  | [], _ => none
  | (k, v) :: m, key => if k = key then some v else mapIndex m key

/-- The assignment `testMap[key] = val`: the entry of `key` is overwritten when
there is one and added otherwise. -/
def mapAssign : Store → Bytes → Bytes → Store
  | [], key, val => [(key, val)]
  | (k, v) :: m, key, val =>
    if k = key then (key, val) :: m else (k, v) :: mapAssign m key val

/-- The calls on the RESP connection that write a reply item. -/
inductive Write where
  /-- The call `rconn.WriteStatusString(s)`: a status reply. -/
  | statusString (s : Bytes)
  /-- The call `rconn.WriteError(fmt.Errorf(msg))`: an error reply. -/
  | error (msg : Bytes)
  /-- The call `rconn.WriteBytes(b)`: a bulk string. -/
  | bytes (b : Bytes)
  /-- The call `rconn.WriteArrayBytes(bs)`: an array of bulk strings. -/
  | arrayBytes (bs : List Bytes)
  /-- The call `rconn.WriteArrayHeader(n)`: an array header. -/
  | arrayHeader (n : Nat)
  /-- The call `rconn.WriteOK()`. -/
  | ok
  /-- The call `rconn.WriteNullString()`: the null bulk string. -/
  | nullString
  /-- The call `rconn.WriteString(s)`: a bulk string. -/
  | string (s : Bytes)
  deriving DecidableEq, Repr

/-- How one iteration of the connection loop leaves the `switch`. -/
inductive Ctl where
  /-- The `switch` is left normally and `rconn.WriteRaw(nil)` follows. -/
  | flush
  /-- A `continue` statement: straight to the next `rconn.Next()`. -/
  | skip
  /-- A `return` statement: the connection goroutine ends. -/
  | ret
  deriving DecidableEq, Repr

/-- The effect of one iteration of the loop body on a decoded argument vector. -/
structure Outcome where
  /-- The contents of `testMap` after the iteration. -/
  store : Store
  /-- The reply items written, in order. -/
  writes : List Write
  /-- The way the iteration ends. -/
  ctl : Ctl
  deriving DecidableEq, Repr

/-- The `switch cmd` of main.go 74-123, on the lower-cased name `cmd` and the
arguments `args` that follow the name. -/
def dispatch (testMap : Store) (cmd : Bytes) (args : List Bytes) : Option Outcome :=
  if cmd = ascii "ping" then
    some ⟨testMap, [Write.statusString (ascii "PONG")], Ctl.flush⟩
  else if cmd = ascii "echo" then
    if args.length = 0 then
      some ⟨testMap, [Write.error (ascii "wrong number of arguments for 'echo' command")],
        Ctl.skip⟩
    else if args.length = 1 then
      match args[0]? with
      | none => none
      | some a => some ⟨testMap, [Write.bytes a], Ctl.skip⟩
    else
      some ⟨testMap, [Write.arrayBytes args], Ctl.flush⟩
  else if cmd = ascii "test" then
    some ⟨testMap, [Write.arrayHeader 2, Write.statusString (ascii "hello"),
      Write.statusString (ascii "world")], Ctl.flush⟩
  else if cmd = ascii "quit" then
    some ⟨testMap, [Write.statusString (ascii "OK")], Ctl.ret⟩
  else if cmd = ascii "set" then
    if args.length ≠ 2 then
      some ⟨testMap, [Write.error (ascii "wrong number of arguments for 'set' command")],
        Ctl.skip⟩
    else
      match args[0]?, args[1]? with
      | some key, some val => some ⟨mapAssign testMap key val, [Write.ok], Ctl.flush⟩
      | _, _ => none
  else if cmd = ascii "get" then
    if args.length ≠ 1 then
      some ⟨testMap, [Write.error (ascii "wrong number of arguments for 'get' command")],
        Ctl.skip⟩
    else
      match args[0]? with
      | none => none
      | some key =>
        match mapIndex testMap key with
        | none => some ⟨testMap, [Write.nullString], Ctl.skip⟩
        | some val => some ⟨testMap, [Write.string val], Ctl.flush⟩
  else
    some ⟨testMap, [Write.error (ascii "unknown command '" ++ cmd ++ ascii "'")], Ctl.flush⟩

/-- One iteration of the loop body after a successful `rconn.Next()`
(main.go 69-123): `args[0]` is lower-cased in place and becomes `cmd`, the rest
of the vector becomes `args`, and the `switch` runs. `none` is the run-time
fault of an index out of range. -/
def step (testMap : Store) (args : List Bytes) : Option Outcome :=
  match args[0]? with
  | none => none
  | some name => dispatch testMap (bstring (BytesToLower name)) (args.drop 1)

/-- One decoded frame together with the environment's answer to the
`rconn.WriteRaw(nil)` that may follow it. -/
structure Frame where
  /-- The argument vector returned by `rconn.Next()`. -/
  args : List Bytes
  /-- Whether `rconn.WriteRaw(nil)` returns an error, when it is reached. -/
  writeFails : Bool
  deriving DecidableEq, Repr

/-- The way the connection loop ends. -/
inductive Ending where
  /-- The call `rconn.Next()` returned an error (main.go 63-67). -/
  | readError
  /-- The call `rconn.WriteRaw(nil)` returned an error (main.go 125-128). -/
  | writeError
  /-- The `return` of `case "quit"` (main.go 98). -/
  | quit
  /-- An index out of range at `args[0]` (main.go 70). -/
  | fault
  deriving DecidableEq, Repr

/-- What a connection has done when its loop ends. -/
structure Trace where
  /-- The contents of `testMap` at the end. -/
  store : Store
  /-- The reply items written, one list per processed frame, in order. -/
  replies : List (List Write)
  /-- The way the loop ended. -/
  ending : Ending
  deriving DecidableEq, Repr

/-- The connection loop `for { ... }` of main.go 60-129 over the frames that
`rconn.Next()` returns before it reports an error. -/
def run (testMap : Store) : List Frame → Trace
  | [] => ⟨testMap, [], Ending.readError⟩
  | f :: fs =>
    match step testMap f.args with
    | none => ⟨testMap, [], Ending.fault⟩
    | some o =>
      match o.ctl with
      | Ctl.ret => ⟨o.store, [o.writes], Ending.quit⟩
      | Ctl.skip =>
        let t := run o.store fs
        ⟨t.store, o.writes :: t.replies, t.ending⟩
      | Ctl.flush =>
        if f.writeFails then ⟨o.store, [o.writes], Ending.writeError⟩
        else
          let t := run o.store fs
          ⟨t.store, o.writes :: t.replies, t.ending⟩

/-- The contents of `testMap` after a sequence of argument vectors has been
processed, one `step` each, whichever connections they arrive on; `none` when a
step faults. -/
def stepAll (testMap : Store) : List (List Bytes) → Option Store
  | [] => some testMap
  | c :: cs =>
    match step testMap c with
    | none => none
    | some o => stepAll o.store cs

/-- The names of the `case` labels of the `switch` (main.go 75-108). -/
def registered : List Bytes :=
  [ascii "ping", ascii "echo", ascii "test", ascii "quit", ascii "set", ascii "get"]

/-- A frame is a two-argument `set` on `key`: three elements, the first of which
lower-cases to `set` and the second of which is `key`. -/
def setsKey (key : Bytes) : List Bytes → Bool
  | [n, k, _] => decide (BytesToLower n = ascii "set") && decide (k = key)
  | _ => false

/-- Two bytes are equal or are the two cases of one ASCII letter. -/
def sameLetter (a b : Nat) : Prop :=
  a = b ∨ (65 ≤ a ∧ a ≤ 90 ∧ b = a + 32) ∨ (65 ≤ b ∧ b ≤ 90 ∧ a = b + 32)

/-- The name `n2` is `n1` with the case of some of its ASCII letters changed. -/
def caseVariant (n1 n2 : Bytes) : Prop := List.Forall₂ sameLetter n1 n2

/-! ## Auxiliary facts -/

theorem mapIndex_mapAssign_same (m : Store) (k v : Bytes) :
    mapIndex (mapAssign m k v) k = some v := by
  induction m with
  | nil => simp [mapAssign, mapIndex]
  | cons p m ih =>
    obtain ⟨k1, v1⟩ := p
    by_cases h : k1 = k
    · simp [mapAssign, mapIndex, h]
    · simp [mapAssign, mapIndex, h, ih]

theorem mapIndex_mapAssign_other (m : Store) (k v key : Bytes) (h : k ≠ key) :
    mapIndex (mapAssign m k v) key = mapIndex m key := by
  induction m with
  | nil => simp [mapAssign, mapIndex, h]
  | cons p m ih =>
    obtain ⟨k1, v1⟩ := p
    by_cases h1 : k1 = k
    · subst h1
      simp [mapAssign, mapIndex, h]
    · by_cases h2 : k1 = key
      · subst h2
        simp [mapAssign, mapIndex, h1]
      · simp [mapAssign, mapIndex, h1, h2, ih]

theorem BytesToLower_idem (b : Bytes) : BytesToLower (BytesToLower b) = BytesToLower b := by
  induction b with
  | nil => rfl
  | cons c b ih =>
    simp only [BytesToLower, ih]
    congr 1
    split_ifs <;> omega

theorem BytesToLower_caseVariant (n1 n2 : Bytes) (h : caseVariant n1 n2) :
    BytesToLower n1 = BytesToLower n2 := by
  induction h with
  | nil => rfl
  | cons hab _ ih =>
    simp only [BytesToLower, ih]
    congr 1
    unfold sameLetter at hab
    split_ifs <;> omega

theorem step_cons (m : Store) (n : Bytes) (args : List Bytes) :
    step m (n :: args) = dispatch m (BytesToLower n) args := by
  simp [step, bstring]

/-- Every branch of the `switch` either keeps `testMap` or is the assignment of
`case "set"` on exactly two arguments. -/
theorem dispatch_store (m : Store) (cmd : Bytes) (args : List Bytes) :
    ∃ o, dispatch m cmd args = some o ∧
      (o.store = m ∨
        (cmd = ascii "set" ∧ ∃ k v, args = [k, v] ∧ o.store = mapAssign m k v)) := by
  unfold dispatch
  split_ifs with h1 h2 h3 h4 h5 h6 h7 h8 h9 h10
  all_goals first
    | exact ⟨_, rfl, Or.inl rfl⟩
    | skip
  · obtain ⟨a, rfl⟩ := List.length_eq_one.mp h4
    exact ⟨_, rfl, Or.inl rfl⟩
  · obtain ⟨k, v, rfl⟩ := List.length_eq_two.mp (not_not.mp h8)
    exact ⟨_, rfl, Or.inr ⟨h7, k, v, rfl, rfl⟩⟩
  · obtain ⟨k, rfl⟩ := List.length_eq_one.mp (not_not.mp h10)
    simp only [List.getElem?_cons_zero]
    cases mapIndex m k <;> exact ⟨_, rfl, Or.inl rfl⟩

theorem dispatch_ping (m : Store) (args : List Bytes) :
    dispatch m (ascii "ping") args =
      some ⟨m, [Write.statusString (ascii "PONG")], Ctl.flush⟩ := by
  unfold dispatch
  rw [if_pos rfl]

theorem dispatch_echo (m : Store) (args : List Bytes) :
    dispatch m (ascii "echo") args =
      if args.length = 0 then
        some ⟨m, [Write.error (ascii "wrong number of arguments for 'echo' command")],
          Ctl.skip⟩
      else if args.length = 1 then
        match args[0]? with
        | none => none
        | some a => some ⟨m, [Write.bytes a], Ctl.skip⟩
      else
        some ⟨m, [Write.arrayBytes args], Ctl.flush⟩ := by
  unfold dispatch
  rw [if_neg (by decide), if_pos rfl]

theorem dispatch_test (m : Store) (args : List Bytes) :
    dispatch m (ascii "test") args =
      some ⟨m, [Write.arrayHeader 2, Write.statusString (ascii "hello"),
        Write.statusString (ascii "world")], Ctl.flush⟩ := by
  unfold dispatch
  rw [if_neg (by decide), if_neg (by decide), if_pos rfl]

theorem dispatch_quit (m : Store) (args : List Bytes) :
    dispatch m (ascii "quit") args =
      some ⟨m, [Write.statusString (ascii "OK")], Ctl.ret⟩ := by
  unfold dispatch
  rw [if_neg (by decide), if_neg (by decide), if_neg (by decide), if_pos rfl]

theorem dispatch_set (m : Store) (args : List Bytes) :
    dispatch m (ascii "set") args =
      if args.length ≠ 2 then
        some ⟨m, [Write.error (ascii "wrong number of arguments for 'set' command")],
          Ctl.skip⟩
      else
        match args[0]?, args[1]? with
        | some key, some val => some ⟨mapAssign m key val, [Write.ok], Ctl.flush⟩
        | _, _ => none := by
  unfold dispatch
  rw [if_neg (by decide), if_neg (by decide), if_neg (by decide), if_neg (by decide),
    if_pos rfl]

theorem dispatch_get (m : Store) (args : List Bytes) :
    dispatch m (ascii "get") args =
      if args.length ≠ 1 then
        some ⟨m, [Write.error (ascii "wrong number of arguments for 'get' command")],
          Ctl.skip⟩
      else
        match args[0]? with
        | none => none
        | some key =>
          match mapIndex m key with
          | none => some ⟨m, [Write.nullString], Ctl.skip⟩
          | some val => some ⟨m, [Write.string val], Ctl.flush⟩ := by
  unfold dispatch
  rw [if_neg (by decide), if_neg (by decide), if_neg (by decide), if_neg (by decide),
    if_neg (by decide), if_pos rfl]

theorem dispatch_unknown (m : Store) (cmd : Bytes) (args : List Bytes)
    (h : cmd ∉ registered) :
    dispatch m cmd args =
      some ⟨m, [Write.error (ascii "unknown command '" ++ cmd ++ ascii "'")], Ctl.flush⟩ := by
  simp only [registered, List.mem_cons, List.mem_singleton, not_or, List.not_mem_nil,
    or_false] at h
  obtain ⟨h1, h2, h3, h4, h5, h6⟩ := h
  unfold dispatch
  rw [if_neg h1, if_neg h2, if_neg h3, if_neg h4, if_neg h5, if_neg h6]

/-- A frame with a name that is not a two-argument `set` on `key` is processed
without a fault and leaves the entry of `key` as it was. -/
theorem step_keeps_key (m : Store) (key : Bytes) (c : List Bytes) (hne : c ≠ [])
    (hc : setsKey key c = false) :
    ∃ o, step m c = some o ∧ mapIndex o.store key = mapIndex m key := by
  cases c with
  | nil => exact absurd rfl hne
  | cons n args =>
    rw [step_cons]
    obtain ⟨o, ho, hs⟩ := dispatch_store m (BytesToLower n) args
    refine ⟨o, ho, ?_⟩
    rcases hs with hs | ⟨hn, k, v, rfl, hs⟩
    · rw [hs]
    · rw [hs]
      apply mapIndex_mapAssign_other
      intro hk
      simp [setsKey, hn, hk] at hc

/-- A sequence of frames, none empty and none a two-argument `set` on `key`, is
processed without a fault and leaves the entry of `key` as it was. -/
theorem stepAll_keeps_key (key : Bytes) (cmds : List (List Bytes)) :
    ∀ m : Store, (∀ c ∈ cmds, c ≠ []) → (∀ c ∈ cmds, setsKey key c = false) →
      ∃ m2, stepAll m cmds = some m2 ∧ mapIndex m2 key = mapIndex m key := by
  induction cmds with
  | nil => intro m _ _; exact ⟨m, rfl, rfl⟩
  | cons c cs ih =>
    intro m hne hc
    obtain ⟨o, ho, hk⟩ :=
      step_keeps_key m key c (hne c (List.mem_cons_self _ _)) (hc c (List.mem_cons_self _ _))
    obtain ⟨m2, h2, hk2⟩ := ih o.store
      (fun d hd => hne d (List.mem_cons_of_mem _ hd))
      (fun d hd => hc d (List.mem_cons_of_mem _ hd))
    refine ⟨m2, ?_, hk2.trans hk⟩
    simp only [stepAll, ho]
    exact h2

/-- A `get` on one argument replies with the entry of the key. -/
theorem step_get_one (m : Store) (g k : Bytes) (hg : BytesToLower g = ascii "get") :
    step m [g, k] =
      match mapIndex m k with
      | none => some ⟨m, [Write.nullString], Ctl.skip⟩
      | some val => some ⟨m, [Write.string val], Ctl.flush⟩ := by
  rw [step_cons, hg, dispatch_get]
  simp

/-! ## The claims -/

/-- C1: after `set` with exactly the two arguments `[k, v]` is processed, `get`
with the single argument `[k]` replies with the bulk string `v`, also after any
sequence of intervening frames (each with a command name) none of which is a
two-argument `set` on `k`; the names match in any letter case. -/
theorem get_after_set (m : Store) (s g k v : Bytes) (cmds : List (List Bytes))
    (hs : BytesToLower s = ascii "set") (hg : BytesToLower g = ascii "get")
    (hne : ∀ c ∈ cmds, c ≠ []) (hc : ∀ c ∈ cmds, setsKey k c = false) :
    ∃ m1 m2, step m [s, k, v] = some ⟨m1, [Write.ok], Ctl.flush⟩ ∧
      stepAll m1 cmds = some m2 ∧
      step m2 [g, k] = some ⟨m2, [Write.string v], Ctl.flush⟩ := by
  obtain ⟨m2, h2, hk⟩ := stepAll_keeps_key k cmds (mapAssign m k v) hne hc
  refine ⟨mapAssign m k v, m2, ?_, h2, ?_⟩
  · rw [step_cons, hs, dispatch_set]
    simp
  · rw [step_get_one m2 g k hg, hk, mapIndex_mapAssign_same]

theorem get_after_set_witness :
    ∃ m1 m2, step [] [ascii "SET", ascii "k", ascii "v"] = some ⟨m1, [Write.ok], Ctl.flush⟩ ∧
      stepAll m1 [[ascii "set", ascii "K", ascii "w"], [ascii "quit"], [ascii "get", ascii "k"]]
        = some m2 ∧
      step m2 [ascii "get", ascii "k"] = some ⟨m2, [Write.string (ascii "v")], Ctl.flush⟩ :=
  get_after_set [] (ascii "SET") (ascii "get") (ascii "k") (ascii "v")
    [[ascii "set", ascii "K", ascii "w"], [ascii "quit"], [ascii "get", ascii "k"]]
    (by decide) (by decide) (by decide) (by decide)

/-- C2: when `k` has no entry in the store (in particular in the empty store),
then after any sequence of frames (each with a command name) none of which is a
two-argument `set` on `k`, `get` with the single argument `[k]` replies with the
null bulk string, which is not an error reply. -/
theorem get_unwritten_null (g k : Bytes) (cmds : List (List Bytes))
    (hg : BytesToLower g = ascii "get")
    (hne : ∀ c ∈ cmds, c ≠ []) (hc : ∀ c ∈ cmds, setsKey k c = false) :
    (∀ m : Store, mapIndex m k = none →
      ∃ m2, stepAll m cmds = some m2 ∧
        step m2 [g, k] = some ⟨m2, [Write.nullString], Ctl.skip⟩) ∧
    (∃ m2, stepAll [] cmds = some m2 ∧
        step m2 [g, k] = some ⟨m2, [Write.nullString], Ctl.skip⟩) ∧
    (∀ msg, Write.nullString ≠ Write.error msg) := by
  have key : ∀ m : Store, mapIndex m k = none →
      ∃ m2, stepAll m cmds = some m2 ∧
        step m2 [g, k] = some ⟨m2, [Write.nullString], Ctl.skip⟩ := by
    intro m hm
    obtain ⟨m2, h2, hk⟩ := stepAll_keeps_key k cmds m hne hc
    refine ⟨m2, h2, ?_⟩
    rw [step_get_one m2 g k hg, hk, hm]
  exact ⟨key, key [] rfl, fun msg h => Write.noConfusion h⟩

theorem get_unwritten_null_witness :
    (∃ m2, stepAll [(ascii "a", ascii "0")]
        [[ascii "set", ascii "a", ascii "1"], [ascii "ping"], [ascii "set", ascii "k"]]
        = some m2 ∧
      step m2 [ascii "GET", ascii "k"] = some ⟨m2, [Write.nullString], Ctl.skip⟩) ∧
    (∃ m2, stepAll []
        [[ascii "set", ascii "a", ascii "1"], [ascii "ping"], [ascii "set", ascii "k"]]
        = some m2 ∧
      step m2 [ascii "GET", ascii "k"] = some ⟨m2, [Write.nullString], Ctl.skip⟩) :=
  ⟨(get_unwritten_null (ascii "GET") (ascii "k")
      [[ascii "set", ascii "a", ascii "1"], [ascii "ping"], [ascii "set", ascii "k"]]
      (by decide) (by decide) (by decide)).1 [(ascii "a", ascii "0")] (by decide),
   (get_unwritten_null (ascii "GET") (ascii "k")
      [[ascii "set", ascii "a", ascii "1"], [ascii "ping"], [ascii "set", ascii "k"]]
      (by decide) (by decide) (by decide)).2.1⟩

/-- C3: `echo` (in any letter case) with zero arguments replies with an arity
error; with exactly one argument it replies with that argument as a bulk
string; with two or more it replies with the array of the arguments, the same
list in the same order. The store is kept in all three cases. -/
theorem echo_replies (m : Store) (n : Bytes) (hn : BytesToLower n = ascii "echo") :
    step m [n] =
      some ⟨m, [Write.error (ascii "wrong number of arguments for 'echo' command")],
        Ctl.skip⟩ ∧
    (∀ a, step m [n, a] = some ⟨m, [Write.bytes a], Ctl.skip⟩) ∧
    (∀ a b rest, step m (n :: a :: b :: rest) =
      some ⟨m, [Write.arrayBytes (a :: b :: rest)], Ctl.flush⟩) := by
  refine ⟨?_, ?_, ?_⟩
  · rw [step_cons, hn, dispatch_echo]
    simp
  · intro a
    rw [step_cons, hn, dispatch_echo]
    simp
  · intro a b rest
    rw [step_cons, hn, dispatch_echo]
    simp

theorem echo_replies_witness :
    step [] [ascii "Echo"] =
      some ⟨[], [Write.error (ascii "wrong number of arguments for 'echo' command")],
        Ctl.skip⟩ ∧
    step [] [ascii "Echo", ascii "Hi"] = some ⟨[], [Write.bytes (ascii "Hi")], Ctl.skip⟩ ∧
    step [] [ascii "Echo", ascii "b", ascii "A", ascii "b"] =
      some ⟨[], [Write.arrayBytes [ascii "b", ascii "A", ascii "b"]], Ctl.flush⟩ :=
  ⟨(echo_replies [] (ascii "Echo") (by decide)).1,
   (echo_replies [] (ascii "Echo") (by decide)).2.1 (ascii "Hi"),
   (echo_replies [] (ascii "Echo") (by decide)).2.2 (ascii "b") (ascii "A") [ascii "b"]⟩

/-- C4: `set` with an argument count other than 2 and `get` with an argument
count other than 1 reply with an arity error and leave the store as it was. -/
theorem set_get_wrong_arity (m : Store) (n : Bytes) (args : List Bytes) :
    (BytesToLower n = ascii "set" → args.length ≠ 2 →
      step m (n :: args) =
        some ⟨m, [Write.error (ascii "wrong number of arguments for 'set' command")],
          Ctl.skip⟩) ∧
    (BytesToLower n = ascii "get" → args.length ≠ 1 →
      step m (n :: args) =
        some ⟨m, [Write.error (ascii "wrong number of arguments for 'get' command")],
          Ctl.skip⟩) := by
  constructor
  · intro hn hl
    rw [step_cons, hn, dispatch_set, if_pos hl]
  · intro hn hl
    rw [step_cons, hn, dispatch_get, if_pos hl]

theorem set_get_wrong_arity_witness :
    step [(ascii "k", ascii "v")] [ascii "set", ascii "k"] =
        some ⟨[(ascii "k", ascii "v")],
          [Write.error (ascii "wrong number of arguments for 'set' command")], Ctl.skip⟩ ∧
    step [(ascii "k", ascii "v")] [ascii "get", ascii "k", ascii "x"] =
        some ⟨[(ascii "k", ascii "v")],
          [Write.error (ascii "wrong number of arguments for 'get' command")], Ctl.skip⟩ :=
  ⟨(set_get_wrong_arity [(ascii "k", ascii "v")] (ascii "set") [ascii "k"]).1
      (by decide) (by decide),
   (set_get_wrong_arity [(ascii "k", ascii "v")] (ascii "get") [ascii "k", ascii "x"]).2
      (by decide) (by decide)⟩

/-- C5, as stated, fails: the name `FOO` matches no registered command, and the
error names `foo`, not the name `FOO` that the client sent. -/
theorem unknown_command_original_case_fails :
    BytesToLower (ascii "FOO") ∉ registered ∧
    step [] [ascii "FOO"] ≠
      some ⟨[], [Write.error (ascii "unknown command 'FOO'")], Ctl.flush⟩ ∧
    step [] [ascii "FOO"] =
      some ⟨[], [Write.error (ascii "unknown command 'foo'")], Ctl.flush⟩ := by
  decide

/-- C5, amended: for every command name whose lower-case form matches none of
the registered commands, and every argument list, the reply is the error with
the text `unknown command '<name>'` where `<name>` is the lower-case form of
the name received; the store is kept and the loop goes on. -/
theorem unknown_command_lowered (m : Store) (n : Bytes) (args : List Bytes)
    (hn : BytesToLower n ∉ registered) :
    step m (n :: args) =
      some ⟨m, [Write.error (ascii "unknown command '" ++ BytesToLower n ++ ascii "'")],
        Ctl.flush⟩ := by
  rw [step_cons, dispatch_unknown m _ args hn]

theorem unknown_command_lowered_witness :
    step [] [ascii "Incr", ascii "K"] =
      some ⟨[], [Write.error (ascii "unknown command '" ++ BytesToLower (ascii "Incr") ++
        ascii "'")], Ctl.flush⟩ :=
  unknown_command_lowered [] (ascii "Incr") [ascii "K"] (by decide)

/-- C6: command lookup is case-insensitive. A name `n2` that is `n1` with the
case of any of its ASCII letters changed is processed, on every store and
argument list, exactly as the lower-case form of `n1`: same reply, same store,
same way of leaving the iteration. The arguments are not case-folded: `echo`
replies with its argument itself, and `set` then `get` use the key itself. -/
theorem lookup_case_insensitive (m : Store) (n1 n2 : Bytes) (args : List Bytes)
    (h : caseVariant n1 n2) :
    step m (n2 :: args) = step m (BytesToLower n1 :: args) ∧
    (∀ a, step m [ascii "echo", a] = some ⟨m, [Write.bytes a], Ctl.skip⟩) ∧
    (∀ k v, BytesToLower k ≠ k →
      step (mapAssign [] k v) [ascii "get", k] =
        some ⟨mapAssign [] k v, [Write.string v], Ctl.flush⟩ ∧
      step (mapAssign [] k v) [ascii "get", BytesToLower k] =
        some ⟨mapAssign [] k v, [Write.nullString], Ctl.skip⟩) := by
  refine ⟨?_, ?_, ?_⟩
  · rw [step_cons, step_cons, BytesToLower_idem, BytesToLower_caseVariant n1 n2 h]
  · intro a
    rw [step_cons, show BytesToLower (ascii "echo") = ascii "echo" by decide, dispatch_echo]
    simp
  · intro k v hk
    constructor
    · rw [step_get_one _ _ _ (by decide), mapIndex_mapAssign_same]
    · rw [step_get_one _ _ _ (by decide)]
      simp [mapAssign, mapIndex, Ne.symm hk]

theorem lookup_case_insensitive_witness :
    step [] [ascii "eChO", ascii "Hi"] = step [] [BytesToLower (ascii "ECHO"), ascii "Hi"] ∧
    step [] [ascii "echo", ascii "Hi"] = some ⟨[], [Write.bytes (ascii "Hi")], Ctl.skip⟩ ∧
    step (mapAssign [] (ascii "K") (ascii "v")) [ascii "get", ascii "K"] =
      some ⟨mapAssign [] (ascii "K") (ascii "v"), [Write.string (ascii "v")], Ctl.flush⟩ ∧
    step (mapAssign [] (ascii "K") (ascii "v")) [ascii "get", BytesToLower (ascii "K")] =
      some ⟨mapAssign [] (ascii "K") (ascii "v"), [Write.nullString], Ctl.skip⟩ :=
  ⟨(lookup_case_insensitive [] (ascii "ECHO") (ascii "eChO") [ascii "Hi"]
      (by simp [caseVariant, ascii, sameLetter])).1,
   (lookup_case_insensitive [] (ascii "ECHO") (ascii "eChO") [ascii "Hi"]
      (by simp [caseVariant, ascii, sameLetter])).2.1 (ascii "Hi"),
   (lookup_case_insensitive [] (ascii "ECHO") (ascii "eChO") [ascii "Hi"]
      (by simp [caseVariant, ascii, sameLetter])).2.2 (ascii "K") (ascii "v") (by decide)⟩

/-- C7: `quit` (in any letter case, with any arguments) writes exactly one
reply, the status `OK`, and returns from the connection loop: a run over frames
that contain a `quit` is the run over the frames up to and including it, so no
later frame produces a reply or changes the store. -/
theorem quit_ends_loop (n : Bytes) (args : List Bytes) (wf : Bool)
    (hn : BytesToLower n = ascii "quit") :
    (∀ m : Store, step m (n :: args) =
      some ⟨m, [Write.statusString (ascii "OK")], Ctl.ret⟩) ∧
    (∀ (m : Store) (post : List Frame), run m (⟨n :: args, wf⟩ :: post) =
      ⟨m, [[Write.statusString (ascii "OK")]], Ending.quit⟩) ∧
    (∀ (m : Store) (pre post : List Frame),
      run m (pre ++ ⟨n :: args, wf⟩ :: post) = run m (pre ++ [⟨n :: args, wf⟩])) := by
  have hstep : ∀ m : Store, step m (n :: args) =
      some ⟨m, [Write.statusString (ascii "OK")], Ctl.ret⟩ := by
    intro m
    rw [step_cons, hn, dispatch_quit]
  have hrun : ∀ (m : Store) (post : List Frame), run m (⟨n :: args, wf⟩ :: post) =
      ⟨m, [[Write.statusString (ascii "OK")]], Ending.quit⟩ := by
    intro m post
    simp only [run, hstep m]
  refine ⟨hstep, hrun, ?_⟩
  intro m pre
  induction pre generalizing m with
  | nil =>
    intro post
    simp only [List.nil_append, hrun]
  | cons f fs ih =>
    intro post
    simp only [List.cons_append, run]
    cases hf : step m f.args with
    | none => rfl
    | some o =>
      simp only
      cases o.ctl with
      | ret => rfl
      | skip => simp only [List.append_eq, ih]
      | flush =>
        cases f.writeFails with
        | true => rfl
        | false => simp only [List.append_eq, ih]

theorem quit_ends_loop_witness :
    run [] [⟨[ascii "set", ascii "a", ascii "1"], false⟩, ⟨[ascii "QUIT"], false⟩,
        ⟨[ascii "set", ascii "a", ascii "2"], false⟩, ⟨[ascii "get", ascii "a"], false⟩] =
      run [] [⟨[ascii "set", ascii "a", ascii "1"], false⟩, ⟨[ascii "QUIT"], false⟩] :=
  (quit_ends_loop (ascii "QUIT") [] false (by decide)).2.2 []
    [⟨[ascii "set", ascii "a", ascii "1"], false⟩]
    [⟨[ascii "set", ascii "a", ascii "2"], false⟩, ⟨[ascii "get", ascii "a"], false⟩]

/-- C8: only `set` changes the store: a frame whose name does not lower-case to
`set` is processed without a fault, whatever its arguments, and the store
after it is the store before it. -/
theorem only_set_mutates (m : Store) (n : Bytes) (args : List Bytes)
    (hn : BytesToLower n ≠ ascii "set") :
    ∃ o, step m (n :: args) = some o ∧ o.store = m := by
  rw [step_cons]
  obtain ⟨o, ho, hs⟩ := dispatch_store m (BytesToLower n) args
  refine ⟨o, ho, ?_⟩
  rcases hs with hs | ⟨h, _⟩
  · exact hs
  · exact absurd h hn

theorem only_set_mutates_witness :
    ∃ o, step [(ascii "k", ascii "v")] [ascii "GET", ascii "k"] = some o ∧
      o.store = [(ascii "k", ascii "v")] :=
  only_set_mutates [(ascii "k", ascii "v")] (ascii "GET") [ascii "k"] (by decide)

/-- C9, as stated, fails: `ping`, the diagnostic command `test` and `quit` with
one argument (the table gives them arity 0) run their handler: the replies are
`PONG`, the fixed array, and `OK` with the connection closed; no arity error. -/
theorem arity_zero_commands_unchecked :
    step [] [ascii "ping", ascii "x"] =
      some ⟨[], [Write.statusString (ascii "PONG")], Ctl.flush⟩ ∧
    step [] [ascii "test", ascii "x"] =
      some ⟨[], [Write.arrayHeader 2, Write.statusString (ascii "hello"),
        Write.statusString (ascii "world")], Ctl.flush⟩ ∧
    step [] [ascii "quit", ascii "x"] =
      some ⟨[], [Write.statusString (ascii "OK")], Ctl.ret⟩ := by
  decide

/-- C9, amended: `echo`, `set` and `get` (in any letter case) with an argument
count that does not match their arity (echo at least 1, set 2, get 1) reply
with an arity error, keep the store and do not close the connection. `ping`,
the diagnostic command `test` and `quit` check no arity: with every argument
list they give their normal reply. -/
theorem arity_checked_commands (m : Store) (n : Bytes) (args : List Bytes) :
    (BytesToLower n = ascii "echo" → args.length < 1 →
      step m (n :: args) =
        some ⟨m, [Write.error (ascii "wrong number of arguments for 'echo' command")],
          Ctl.skip⟩) ∧
    (BytesToLower n = ascii "set" → args.length ≠ 2 →
      step m (n :: args) =
        some ⟨m, [Write.error (ascii "wrong number of arguments for 'set' command")],
          Ctl.skip⟩) ∧
    (BytesToLower n = ascii "get" → args.length ≠ 1 →
      step m (n :: args) =
        some ⟨m, [Write.error (ascii "wrong number of arguments for 'get' command")],
          Ctl.skip⟩) ∧
    (BytesToLower n = ascii "ping" →
      step m (n :: args) = some ⟨m, [Write.statusString (ascii "PONG")], Ctl.flush⟩) ∧
    (BytesToLower n = ascii "test" →
      step m (n :: args) =
        some ⟨m, [Write.arrayHeader 2, Write.statusString (ascii "hello"),
          Write.statusString (ascii "world")], Ctl.flush⟩) ∧
    (BytesToLower n = ascii "quit" →
      step m (n :: args) = some ⟨m, [Write.statusString (ascii "OK")], Ctl.ret⟩) := by
  refine ⟨?_, ?_, ?_, ?_, ?_, ?_⟩
  · intro hn hl
    rw [step_cons, hn, dispatch_echo, if_pos (by omega)]
  · intro hn hl
    rw [step_cons, hn, dispatch_set, if_pos hl]
  · intro hn hl
    rw [step_cons, hn, dispatch_get, if_pos hl]
  · intro hn
    rw [step_cons, hn, dispatch_ping]
  · intro hn
    rw [step_cons, hn, dispatch_test]
  · intro hn
    rw [step_cons, hn, dispatch_quit]

theorem arity_checked_commands_witness :
    step [] [ascii "ECHO"] =
        some ⟨[], [Write.error (ascii "wrong number of arguments for 'echo' command")],
          Ctl.skip⟩ ∧
    step [] [ascii "SET", ascii "k", ascii "v", ascii "w"] =
        some ⟨[], [Write.error (ascii "wrong number of arguments for 'set' command")],
          Ctl.skip⟩ ∧
    step [] [ascii "GET"] =
        some ⟨[], [Write.error (ascii "wrong number of arguments for 'get' command")],
          Ctl.skip⟩ ∧
    step [] [ascii "PING", ascii "x", ascii "y"] =
        some ⟨[], [Write.statusString (ascii "PONG")], Ctl.flush⟩ ∧
    step [] [ascii "TEST", ascii "x"] =
        some ⟨[], [Write.arrayHeader 2, Write.statusString (ascii "hello"),
          Write.statusString (ascii "world")], Ctl.flush⟩ ∧
    step [] [ascii "QUIT", ascii "x"] =
        some ⟨[], [Write.statusString (ascii "OK")], Ctl.ret⟩ :=
  ⟨(arity_checked_commands [] (ascii "ECHO") []).1 (by decide) (by decide),
   (arity_checked_commands [] (ascii "SET") [ascii "k", ascii "v", ascii "w"]).2.1
      (by decide) (by decide),
   (arity_checked_commands [] (ascii "GET") []).2.2.1 (by decide) (by decide),
   (arity_checked_commands [] (ascii "PING") [ascii "x", ascii "y"]).2.2.2.1 (by decide),
   (arity_checked_commands [] (ascii "TEST") [ascii "x"]).2.2.2.2.1 (by decide),
   (arity_checked_commands [] (ascii "QUIT") [ascii "x"]).2.2.2.2.2 (by decide)⟩

/-- C10: the step faults (index out of range at `args[0]`) exactly on the empty
argument vector; on every non-empty vector it yields a reply and a store. -/
theorem step_faults_iff_empty (m : Store) (args : List Bytes) :
    (step m args = none ↔ args = []) ∧
    (args ≠ [] → ∃ o, step m args = some o) := by
  cases args with
  | nil => exact ⟨⟨fun _ => rfl, fun _ => rfl⟩, fun h => absurd rfl h⟩
  | cons n rest =>
    obtain ⟨o, ho, _⟩ := dispatch_store m (BytesToLower n) rest
    rw [step_cons, ho]
    exact ⟨⟨fun h => Option.noConfusion h, fun h => List.noConfusion h⟩, fun _ => ⟨o, rfl⟩⟩

theorem step_faults_iff_empty_witness :
    (step [] [] = none) ∧ (∃ o, step [] [ascii "set", ascii "k"] = some o) :=
  ⟨(step_faults_iff_empty [] []).1.mpr rfl,
   (step_faults_iff_empty [] [ascii "set", ascii "k"]).2 (by decide)⟩

end Hddis
